import Mathlib

/-!
Verification of the black_hole renderer (Python sources) against its
natural-language specification.

The development shallowly embeds the relevant Python code:

* `python/scene.py`     — orbit camera input processing (`Camera.update`,
  `Camera.process_mouse_move`, `Camera.process_scroll`);
* `python/renderer.py` / `python/main.py` — compute-dispatch sizing
  (`Engine.dispatch_compute`), uniform packing (`Engine.upload_objects`)
  and the curvature grid (`Engine.generate_grid`);
* `gpu_rendering/buffer_manager.py` — particle-buffer growth policy
  (`BufferManager.update_particle_buffer`);
* `python/cpu_geodesic.py` — the Schwarzschild null-geodesic integrator
  (`Ray.__init__`, `Ray.step`).

Machine floats are modelled by exact rationals/reals; Python's fallible
operations (`x / 0.0` raising `ZeroDivisionError`, `math.sqrt` of a negative,
`math.acos` outside `[-1, 1]`) are modelled by `Option`, with `none` standing
for a raised exception.
-/

namespace BlackHole

/-! ### Configuration constants (python/config.py, python/main.py) -/

def COMPUTE_STATIC_W : ℕ := 200
def COMPUTE_STATIC_H : ℕ := 150
def COMPUTE_DYNAMIC_W : ℕ := 100
def COMPUTE_DYNAMIC_H : ℕ := 75
def MAX_OBJECTS : ℕ := 16

/-- Speed of light, `c = 299_792_458.0` (python/config.py). -/
def cLight : ℚ := 299792458

/-- Gravitational constant, `G = 6.67430e-11` (python/config.py). -/
def Gconst : ℚ := 6.67430e-11

/-! ### Camera input processing (python/scene.py, `Camera`) -/

/-- The orbit-camera state carried by `Camera.__init__` (python/scene.py).
The fixed per-instance parameters (`minRadius`, `maxRadius`, `orbitSpeed`,
`panSpeed`, `zoomSpeed`) are never mutated, so they appear as the constants
below rather than as fields. -/
structure Cam where
  radius : ℝ
  azimuth : ℝ
  elevation : ℝ
  lastX : ℝ
  lastY : ℝ
  dragging : Bool
  panning : Bool
  moving : Bool

def camMinRadius : ℝ := 1e10
def camMaxRadius : ℝ := 1e12
def camOrbitSpeed : ℝ := 0.01
def camZoomSpeed : ℝ := 25e9

/-- `Camera.__init__` field values (python/scene.py). -/
noncomputable def initCam : Cam :=
  { radius := 6.34194e10, azimuth := 0, elevation := Real.pi / 2
    lastX := 0, lastY := 0, dragging := false, panning := false, moving := false }

/-- `Camera.update` (python/scene.py): re-centres the target and sets
`moving = bool(dragging or panning)`. -/
def camUpdate (c : Cam) : Cam :=
  { c with moving := c.dragging || c.panning }

/-- `Camera.process_scroll` (python/scene.py): zooms by `yoff * zoomSpeed`,
clamps the radius to `[minRadius, maxRadius]`, then calls `update`. -/
def processScroll (c : Cam) (_xoff yoff : ℝ) : Cam :=
  let r := c.radius - yoff * camZoomSpeed
  camUpdate { c with radius := max camMinRadius (min camMaxRadius r) }

/-- `Camera.process_mouse_move` (python/scene.py). -/
noncomputable def processMouseMove (c : Cam) (x y : ℝ) : Cam :=
  let dx := x - c.lastX
  let dy := y - c.lastY
  let c1 :=
    if c.dragging && !c.panning then
      { c with
          azimuth := c.azimuth + dx * camOrbitSpeed
          elevation :=
            max 0.01 (min (Real.pi - 0.01) (c.elevation - dy * camOrbitSpeed)) }
    else c
  camUpdate { c1 with lastX := x, lastY := y }

/-! ### Compute dispatch (python/renderer.py `Engine.dispatch_compute`) -/

/-- What one call to `Engine.dispatch_compute` does, as a function of the
camera's `moving` flag and the current dimensions of the RGBA8 compute
texture: the chosen target size, whether `glTexImage2D` reallocates the
texture, the dispatched work-group counts, and whether the shader-image
memory barrier is issued. -/
structure DispatchResult where
  cw : ℕ
  ch : ℕ
  realloc : Bool
  groupsX : ℕ
  groupsY : ℕ
  barrier : Bool

/-- `Engine.dispatch_compute` (python/renderer.py lines 267-283):
`cw, ch` are the dynamic size when moving, else the static size; the texture
is re-created only when the current dimensions differ; work groups are
`ceil(cw/16) x ceil(ch/16) x 1`; a `GL_SHADER_IMAGE_ACCESS_BARRIER_BIT`
barrier always follows. -/
def dispatchCompute (moving : Bool) (texW texH : ℕ) : DispatchResult :=
  let cw := if moving then COMPUTE_DYNAMIC_W else COMPUTE_STATIC_W
  let ch := if moving then COMPUTE_DYNAMIC_H else COMPUTE_STATIC_H
  { cw := cw, ch := ch
    realloc := (texW != cw) || (texH != ch)
    groupsX := (cw + 15) / 16
    groupsY := (ch + 15) / 16
    barrier := true }

/-! ### Particle-buffer growth (gpu_rendering/buffer_manager.py) -/

/-- The GL call performed by `BufferManager.update_particle_buffer` for
the data transfer: nothing (empty particle list that still fits),
`glBufferSubData`, or a reallocating `glBufferData`. -/
inductive BufAction where
  | noWrite : BufAction
  | subData : BufAction
  | realloc : BufAction
deriving DecidableEq, Repr

/-- `BufferManager.update_particle_buffer` (gpu_rendering/buffer_manager.py
lines 141-212), restricted to its observable effect on the stored capacity
(`_buffer_sizes[name]`, in particles) and the GL transfer used.  `cap` is the
current capacity, `n` the new particle count.  When `n <= cap` the buffer is
left at its capacity and `glBufferSubData` is used (skipped entirely for
`n = 0`); otherwise `glBufferData` reallocates at
`new_size = max(n, int(cap * 1.5))`, where Python's `int()` truncates, i.e.
`int(cap * 1.5) = 3*cap/2` rounded down. -/
def updateParticleBuffer (cap n : ℕ) : BufAction × ℕ :=
  if n ≤ cap then
    (if 0 < n then (BufAction.subData, cap) else (BufAction.noWrite, cap))
  else
    (BufAction.realloc, max n (3 * cap / 2))

/-! ### Curvature grid (python/renderer.py `Engine.generate_grid`,
identical in python/main.py) -/

/-- One scene-object entry `[x, y, z, radius, cr, cg, cb, mass]` as stored in
the `objects` list (python/main.py, python/scene.py `default_objects`). -/
structure SceneObj where
  x : ℝ
  y : ℝ
  z : ℝ
  radius : ℝ
  cr : ℝ
  cg : ℝ
  cb : ℝ
  mass : ℝ

/-- `rs = 2.0 * G * mass / (c*c)` as computed inside `generate_grid`. -/
noncomputable def objectRs (m : ℝ) : ℝ := 2 * (Gconst : ℝ) * m / ((cLight : ℝ) * (cLight : ℝ))

/-- Grid geometry of `generate_grid`: `gridSize = 25`, `spacing = 1e10`,
vertex world coordinate `(i - gridSize/2) * spacing` for `i = 0..25`. -/
noncomputable def gridWorld (i : ℕ) : ℝ := ((i : ℝ) - 25 / 2) * 1e10

/-- The per-object term added to a grid vertex's `y` in `generate_grid`:
`2*sqrt(rs*(dist-rs)) - 3e10` when `dist > rs`, else `2*sqrt(rs*rs) - 3e10`,
with `dist` the horizontal distance from the vertex to the object. -/
noncomputable def gridContribution (wx wz : ℝ) (o : SceneObj) : ℝ :=
  let rs := objectRs o.mass
  let dx := wx - o.x
  let dz := wz - o.z
  let dist := Real.sqrt (dx * dx + dz * dz)
  if dist > rs then 2 * Real.sqrt (rs * (dist - rs)) - 3e10
  else 2 * Real.sqrt (rs * rs) - 3e10

/-- The vertical displacement `y` accumulated by `generate_grid` for the
vertex at `(wx, wz)`: starting from `0.0`, it adds the per-object term for
every object in the scene list, in order. -/
noncomputable def gridVertexY (wx wz : ℝ) (objs : List SceneObj) : ℝ :=
  objs.foldl (fun y o => y + gridContribution wx wz o) 0

/-- Modelled from the spec (section 4.4): the per-object embedding-diagram
contribution `contribution_i`, without any offset —
`2*sqrt(rs*(d-rs))` for `d > rs` and `2*rs` for `d <= rs`. -/
noncomputable def specContribution (wx wz : ℝ) (o : SceneObj) : ℝ :=
  let rs := objectRs o.mass
  let d := Real.sqrt ((wx - o.x) * (wx - o.x) + (wz - o.z) * (wz - o.z))
  if d > rs then 2 * Real.sqrt (rs * (d - rs)) else 2 * rs

/-! ### Uniform packing (python/renderer.py `Engine.upload_objects`,
identical modulo the objects argument in python/main.py)

`upload_objects` builds `header.tobytes() + posRadius.tobytes() +
color.tobytes() + mass.tobytes()` where `header = np.array([count,0,0,0],
dtype=np.float32)`, `posRadius`/`color` are zero-initialised `(16,4)` float32
arrays and `mass` a zero-initialised float32 vector of length 16; the first
`count = min(len(objects), 16)` rows are filled from the object list.  Bytes
are modelled as `List ℕ` (each entry `< 256`); float32 serialization is the
IEEE-754 binary32 round-to-nearest-even encoding `f32bits`, emitted
little-endian. -/

/-- Round a nonnegative rational to the nearest natural, ties to even. -/
def roundHalfEven (q : ℚ) : ℕ :=
  let m := ⌊q⌋.toNat
  let frac := q - (m : ℚ)
  if frac < 1 / 2 then m
  else if 1 / 2 < frac then m + 1
  else if m % 2 = 0 then m else m + 1

/-- IEEE-754 binary32 bit pattern (as a natural `< 2^32`) of an exact
rational, rounding to nearest, ties to even; overflow encodes infinity and
tiny values encode subnormals, matching `numpy.float32` conversion. -/
def f32bits (x : ℚ) : ℕ :=
  if x = 0 then 0
  else
    let s : ℕ := if x < 0 then 2 ^ 31 else 0
    let a := |x|
    let e : ℤ := Int.log 2 a
    if e < -126 then
      -- subnormal range; a rounded-up mantissa of 2^23 lands exactly on the
      -- smallest normal encoding
      s + roundHalfEven (a * 2 ^ (149 : ℕ))
    else
      let m := roundHalfEven (a * (2 : ℚ) ^ ((23 : ℤ) - e))
      if 2 ^ 24 ≤ m then
        if 254 ≤ e + 127 then s + 255 * 2 ^ 23
        else s + ((e + 127).toNat + 1) * 2 ^ 23
      else if 255 ≤ e + 127 then s + 255 * 2 ^ 23
      else s + (e + 127).toNat * 2 ^ 23 + (m - 2 ^ 23)

/-- The four bytes of a 32-bit word, little-endian. -/
def le32 (w : ℕ) : List ℕ :=
  [w % 256, w / 256 % 256, w / 65536 % 256, w / 16777216 % 256]

/-- Little-endian float32 bytes of a rational value. -/
def f32bytes (x : ℚ) : List ℕ := le32 (f32bits x)

/-- A scene object with exact-rational fields, as consumed by
`upload_objects` (`x,y,z,r, cr,cg,cb, m` per entry). -/
structure ObjEntry where
  x : ℚ
  y : ℚ
  z : ℚ
  r : ℚ
  cr : ℚ
  cg : ℚ
  cb : ℚ
  m : ℚ

instance : Inhabited ObjEntry := ⟨⟨0, 0, 0, 0, 0, 0, 0, 0⟩⟩

/-- `count = min(len(objects), MAX_OBJECTS)` (python/renderer.py line 253). -/
def uploadedCount (objs : List ObjEntry) : ℕ := min objs.length MAX_OBJECTS

/-- The bytes of `header.tobytes()`: `np.array([count, 0, 0, 0],
dtype=np.float32)` — note the count is serialized as a float32. -/
def headerBytes (objs : List ObjEntry) : List ℕ :=
  f32bytes (uploadedCount objs : ℚ) ++ f32bytes 0 ++ f32bytes 0 ++ f32bytes 0

/-- The bytes of `posRadius.tobytes()`: sixteen float32 rows `[x, y, z, r]`,
rows at index `>= count` left at their `np.zeros` value. -/
def posRadiusBytes (objs : List ObjEntry) : List ℕ :=
  (List.range MAX_OBJECTS).flatMap fun i =>
    if i < uploadedCount objs then
      let o := objs.getD i default
      f32bytes o.x ++ f32bytes o.y ++ f32bytes o.z ++ f32bytes o.r
    else
      f32bytes 0 ++ f32bytes 0 ++ f32bytes 0 ++ f32bytes 0

/-- The bytes of `color.tobytes()`: rows `[cr, cg, cb, 1.0]` for packed
entries, zeros elsewhere. -/
def colorBytes (objs : List ObjEntry) : List ℕ :=
  (List.range MAX_OBJECTS).flatMap fun i =>
    if i < uploadedCount objs then
      let o := objs.getD i default
      f32bytes o.cr ++ f32bytes o.cg ++ f32bytes o.cb ++ f32bytes 1
    else
      f32bytes 0 ++ f32bytes 0 ++ f32bytes 0 ++ f32bytes 0

/-- The bytes of `mass.tobytes()`: sixteen float32 scalars. -/
def massBytes (objs : List ObjEntry) : List ℕ :=
  (List.range MAX_OBJECTS).flatMap fun i =>
    if i < uploadedCount objs then f32bytes ((objs.getD i default).m)
    else f32bytes 0

/-- The full blob written by `glBufferSubData` in `upload_objects`. -/
def uploadObjectsBlob (objs : List ObjEntry) : List ℕ :=
  headerBytes objs ++ posRadiusBytes objs ++ colorBytes objs ++ massBytes objs

/-- Two's-complement little-endian int32 bytes of a nonnegative count. -/
def int32leBytes (n : ℕ) : List ℕ := le32 (n % 2 ^ 32)

/-- Modelled from the spec (section 6, Objects block): the specified layout
starts with `int count` (4-byte little-endian int) followed by 12 bytes of
padding, then the same `posRadius[16]`, `color[16]` and `mass[16]` arrays. -/
def specObjectsBlob (objs : List ObjEntry) : List ℕ :=
  int32leBytes (uploadedCount objs) ++ List.replicate 12 0 ++
    posRadiusBytes objs ++ colorBytes objs ++ massBytes objs

/-! ### Geodesic integrator (python/cpu_geodesic.py)

Floats become exact reals.  Python raises `ZeroDivisionError` on `x / 0.0`
(even for `0.0 / 0.0`), `math.acos` raises `ValueError` outside `[-1, 1]`,
and `math.sqrt` raises `ValueError` on negative input; each such potential
raise becomes an explicit `none`. -/

/-- C `atan2` as exposed by Python's `math.atan2`: quadrant-corrected
arctangent (total; `atan2 0 0 = 0`). -/
noncomputable def atan2 (y x : ℝ) : ℝ :=
  if 0 < x then Real.arctan (y / x)
  else if x < 0 then
    if 0 ≤ y then Real.arctan (y / x) + Real.pi
    else Real.arctan (y / x) - Real.pi
  else
    if 0 < y then Real.pi / 2
    else if y < 0 then -(Real.pi / 2)
    else 0

/-- The state held by a `Ray` instance (python/cpu_geodesic.py): Cartesian
position, spherical position, affine-parameter derivatives, conserved
quantities and the Schwarzschild radius it was built with. -/
structure Ray where
  x : ℝ
  y : ℝ
  z : ℝ
  r : ℝ
  theta : ℝ
  phi : ℝ
  dr : ℝ
  dtheta : ℝ
  dphi : ℝ
  L : ℝ
  E : ℝ
  rs : ℝ

/-- `Ray.__init__(pos, dir, rs)` (python/cpu_geodesic.py lines 19-33).
Guards, in execution order: `z/r` and `dtheta/r` divide by `r`;
`math.acos` needs `|z/r| <= 1`; `dphi` divides by `r*sin(theta)`;
`dr*dr/f` divides by `f`; `math.sqrt` needs a nonnegative argument. -/
noncomputable def rayInit (px py pz dx dy dz rs : ℝ) : Option Ray :=
  let r := Real.sqrt (px * px + py * py + pz * pz)
  if r = 0 then none
  else if 1 < |pz / r| then none
  else
    let theta := Real.arccos (pz / r)
    let phi := atan2 py px
    let dr := Real.sin theta * Real.cos phi * dx +
      Real.sin theta * Real.sin phi * dy + Real.cos theta * dz
    let dtheta := (Real.cos theta * Real.cos phi * dx +
      Real.cos theta * Real.sin phi * dy - Real.sin theta * dz) / r
    if r * Real.sin theta = 0 then none
    else
      let dphi := (-Real.sin phi * dx + Real.cos phi * dy) / (r * Real.sin theta)
      let L := r * r * Real.sin theta * dphi
      let f := 1 - rs / r
      if f = 0 then none
      else
        let arg := dr * dr / f +
          r * r * (dtheta * dtheta + Real.sin theta ^ 2 * (dphi * dphi))
        if arg < 0 then none
        else
          let dtDlam := Real.sqrt arg
          some ⟨px, py, pz, r, theta, phi, dr, dtheta, dphi, L, f * dtDlam, rs⟩

/-- The six-vector returned by the nested `rhs()` of `Ray.step`
(python/cpu_geodesic.py lines 37-44): `(dr, dtheta, dphi, dr2, dth2, dph2)`. -/
structure Deriv6 where
  v1 : ℝ
  v2 : ℝ
  v3 : ℝ
  v4 : ℝ
  v5 : ℝ
  v6 : ℝ

/-- The derivative function `rhs()` read off the *current* fields of the ray
(it closes over `self`, whose state is never advanced between stages). -/
noncomputable def rayRhs (s : Ray) : Deriv6 :=
  let f := 1 - s.rs / s.r
  let dtDlam := s.E / f
  let dr2 := -(s.rs / (2 * s.r * s.r)) * f * dtDlam ^ 2 +
    (s.rs / (2 * s.r * s.r * f)) * (s.dr * s.dr) +
    s.r * (s.dtheta * s.dtheta + Real.sin s.theta ^ 2 * (s.dphi * s.dphi))
  let dth2 := -(2 / s.r) * s.dr * s.dtheta +
    Real.sin s.theta * Real.cos s.theta * (s.dphi * s.dphi)
  let dph2 := -(2 / s.r) * s.dr * s.dphi -
    2 * Real.cos s.theta / Real.sin s.theta * s.dtheta * s.dphi
  ⟨s.dr, s.dtheta, s.dphi, dr2, dth2, dph2⟩

/-- `Ray.step(dlam)` (python/cpu_geodesic.py lines 35-54).  Returns
immediately (state unchanged) once `r <= rs`.  Otherwise all four stage
derivatives `k1..k4` are produced by calling `rhs()` on the same unmodified
`self`, the six-vector state is advanced by `(dlam/6)*(k1 + 2 k2 + 2 k3 +
k4)`, and the Cartesian position is recomputed from the new `(r, theta,
phi)`.  The divisions inside `rhs()` (`rs/r`, `E/f`, `.../f`, `2/r`,
`cos/sin`) raise when `r = 0`, `f = 0` or `sin(theta) = 0`; this is the
`none` branch. -/
noncomputable def rayStep (s : Ray) (dlam : ℝ) : Option Ray :=
  if s.r ≤ s.rs then some s
  else if s.r = 0 ∨ 1 - s.rs / s.r = 0 ∨ Real.sin s.theta = 0 then none
  else
    let k1 := rayRhs s
    let k2 := rayRhs s
    let k3 := rayRhs s
    let k4 := rayRhs s
    let r' := s.r + dlam / 6 * (k1.v1 + 2 * k2.v1 + 2 * k3.v1 + k4.v1)
    let theta' := s.theta + dlam / 6 * (k1.v2 + 2 * k2.v2 + 2 * k3.v2 + k4.v2)
    let phi' := s.phi + dlam / 6 * (k1.v3 + 2 * k2.v3 + 2 * k3.v3 + k4.v3)
    let dr' := s.dr + dlam / 6 * (k1.v4 + 2 * k2.v4 + 2 * k3.v4 + k4.v4)
    let dtheta' := s.dtheta + dlam / 6 * (k1.v5 + 2 * k2.v5 + 2 * k3.v5 + k4.v5)
    let dphi' := s.dphi + dlam / 6 * (k1.v6 + 2 * k2.v6 + 2 * k3.v6 + k4.v6)
    some ⟨r' * Real.sin theta' * Real.cos phi',
      r' * Real.sin theta' * Real.sin phi',
      r' * Real.cos theta',
      r', theta', phi', dr', dtheta', dphi', s.L, s.E, s.rs⟩

/-! ## Helper lemmas -/

theorem roundHalfEven_natCast (n : ℕ) : roundHalfEven (n : ℚ) = n := by
  simp only [roundHalfEven, Int.floor_natCast]
  norm_num

theorem f32bits_two : f32bits 2 = 1073741824 := by
  have hlog : Int.log 2 (2:ℚ) = 1 := by
    have h : Nat.log 2 2 = 1 := by
      apply Nat.log_eq_of_pow_le_of_lt_pow <;> norm_num
    rw [show (2:ℚ) = ((2:ℕ):ℚ) by norm_num, Int.log_natCast, h]; norm_num
  have habs : |(2:ℚ)| = 2 := by norm_num
  simp only [f32bits, habs, hlog]
  rw [if_neg (by norm_num)]
  rw [if_neg (by norm_num : ¬ (2:ℚ) < 0)]
  rw [if_neg (by norm_num : ¬ (1:ℤ) < -126)]
  have harg : (2:ℚ) * (2:ℚ) ^ ((23:ℤ) - 1) = ((8388608 : ℕ) : ℚ) := by norm_num
  rw [harg, roundHalfEven_natCast]
  norm_num
  decide

/-! ## Claims -/

/-- **C6.** On every frame, `dispatch_compute` selects target `(100, 75)`
when the camera is moving and `(200, 150)` otherwise, reallocates the
compute texture exactly when the current dimensions differ from the target,
dispatches `7x5` work groups while moving and `13x10` when idle, and always
issues the shader-image memory barrier; when the size is unchanged no
reallocation occurs. -/
theorem claim6_dispatch_compute (moving : Bool) (texW texH : ℕ) :
    (dispatchCompute moving texW texH).cw = (if moving then 100 else 200) ∧
    (dispatchCompute moving texW texH).ch = (if moving then 75 else 150) ∧
    ((dispatchCompute moving texW texH).realloc = false ↔
      (texW = (dispatchCompute moving texW texH).cw ∧
       texH = (dispatchCompute moving texW texH).ch)) ∧
    (dispatchCompute moving texW texH).groupsX = (if moving then 7 else 13) ∧
    (dispatchCompute moving texW texH).groupsY = (if moving then 5 else 10) ∧
    (dispatchCompute moving texW texH).barrier = true := by
  cases moving <;>
    refine ⟨rfl, rfl, ?_, rfl, rfl, rfl⟩ <;>
    simp only [dispatchCompute, COMPUTE_STATIC_W, COMPUTE_STATIC_H,
      COMPUTE_DYNAMIC_W, COMPUTE_DYNAMIC_H, Bool.or_eq_false_iff,
      bne_eq_false_iff_eq, Bool.ite_eq_true_distrib, if_true, if_false]

/-- **C8 counterexample.** A scroll (zoom) event with no button held
produces a genuine zoom delta — the radius changes — yet the `moving` flag
is `false` for the following frame, contradicting "moving is true iff any
drag or zoom delta occurred since the previous frame". -/
theorem claim8_scroll_not_moving_cex :
    (processScroll initCam 0 1).radius ≠ initCam.radius ∧
    (processScroll initCam 0 1).moving = false := by
  constructor
  · simp only [processScroll, camUpdate, initCam, camMinRadius, camMaxRadius,
      camZoomSpeed]
    norm_num
  · rfl

/-- **C8 (amended).** After a scroll or mouse-move event is processed, the
camera's `moving` flag equals `dragging || panning` from before the event:
a drag with a button held sets it, but a zoom (scroll) delta alone never
does. -/
theorem claim8_moving_eq_drag_or_pan (c : Cam) (x y xoff yoff : ℝ) :
    (processScroll c xoff yoff).moving = (c.dragging || c.panning) ∧
    (processMouseMove c x y).moving = (c.dragging || c.panning) := by
  refine ⟨rfl, ?_⟩
  simp only [processMouseMove, camUpdate]
  by_cases h : c.dragging && !c.panning <;> simp [h]

/-- **C9 counterexample.** For a registered buffer of capacity `5` updated
with `6` particles, the code reallocates to capacity
`max(6, int(5 * 1.5)) = 7`, not the claimed `max(6, ceil(1.5 * 5)) = 8`. -/
theorem claim9_growth_cex :
    (updateParticleBuffer 5 6).2 = 7 ∧
    (updateParticleBuffer 5 6).2 ≠ max 6 ⌈(1.5 : ℚ) * 5⌉₊ := by
  constructor
  · rfl
  · rw [show ⌈(1.5 : ℚ) * 5⌉₊ = 8 by rw [Nat.ceil_eq_iff] <;> norm_num]
    decide

/-- **C9 (amended).** For every registered particle buffer of capacity `c`
and update of `n` particles: if `n ≤ c` the capacity is unchanged and the
transfer is `glBufferSubData` (no write at all for `n = 0`); if `n > c` the
buffer is reallocated with new capacity `max(n, ⌊1.5·c⌋)` — Python's
`int(c * 1.5)` truncates instead of taking the ceiling. -/
theorem claim9_buffer_growth (c n : ℕ) :
    updateParticleBuffer c n =
      if n ≤ c then
        (if 0 < n then BufAction.subData else BufAction.noWrite, c)
      else (BufAction.realloc, max n ⌊(1.5 : ℚ) * c⌋₊) := by
  have hfloor : ⌊(1.5 : ℚ) * c⌋₊ = 3 * c / 2 := by
    rw [show (1.5 : ℚ) * c = ((3 * c : ℕ) : ℚ) / ((2 : ℕ) : ℚ) by push_cast; ring,
      Nat.floor_div_nat, Nat.floor_natCast]
  rw [updateParticleBuffer, hfloor]
  split_ifs <;> rfl

/-- `SagA.r_s` (python/scene.py): `2.0 * G * 8.54e36 / (c*c)`. -/
def sagArs : ℚ := 2 * Gconst * 8.54e36 / (cLight * cLight)

/-- `default_objects()` (python/scene.py) / the module-level `objects` list
(python/main.py): a yellow star and the central black hole. -/
def defaultObjects : List ObjEntry :=
  [⟨4e11, 0, 4e11, 4e10, 1, 1, 0, 1.98892e30⟩,
   ⟨0, 0, 0, sagArs, 0, 0, 0, 8.54e36⟩]

theorem f32bits_zero : f32bits 0 = 0 := by
  simp [f32bits]

theorem f32bytes_length (x : ℚ) : (f32bytes x).length = 4 := rfl

theorem f32bytes_two : f32bytes 2 = [0, 0, 0, 64] := by
  rw [f32bytes, f32bits_two]; decide

theorem f32bytes_zero : f32bytes 0 = [0, 0, 0, 0] := by
  rw [f32bytes, f32bits_zero]; decide

/-- **C7 (code bug).** For the default two-object scene the blob written to
uniform binding 3 does *not* match the section-6 layout byte for byte: the
code serializes the object count through `np.float32`, so the first word is
the IEEE bit pattern of `2.0` — bytes `[0, 0, 0, 64]` — where the layout
(and the code's own `ctypes.c_int` allocation of the block) requires the
little-endian int `2` — bytes `[2, 0, 0, 0]`. -/
theorem claim7_header_float_not_int :
    (uploadObjectsBlob defaultObjects).take 4 = [0, 0, 0, 64] ∧
    (specObjectsBlob defaultObjects).take 4 = [2, 0, 0, 0] ∧
    uploadObjectsBlob defaultObjects ≠ specObjectsBlob defaultObjects := by
  have hcount : uploadedCount defaultObjects = 2 := rfl
  have hhead : (uploadObjectsBlob defaultObjects).take 4 = [0, 0, 0, 64] := by
    rw [uploadObjectsBlob, headerBytes, hcount]
    rw [show ((2 : ℕ) : ℚ) = 2 by norm_num, f32bytes_two]
    rfl
  have hspec : (specObjectsBlob defaultObjects).take 4 = [2, 0, 0, 0] := by
    rw [specObjectsBlob, hcount]
    rfl
  refine ⟨hhead, hspec, fun h => ?_⟩
  rw [congrArg (List.take 4) h, hspec] at hhead
  exact absurd hhead (by decide)

/-- **C10.** `upload_objects` never indexes past the fixed-size arrays: the
uploaded count is `min(len(objects), 16)`, the blob is exactly 592 bytes
(16-byte header + 16 posRadius vec4s + 16 color vec4s + 16 mass floats)
whatever the length of the list, and any objects beyond the first 16 are
silently ignored — the blob for `objs` equals the blob for `objs.take 16`. -/
theorem claim10_upload_objects_bounds (objs : List ObjEntry) :
    uploadedCount objs = min objs.length 16 ∧
    (uploadObjectsBlob objs).length = 592 ∧
    uploadObjectsBlob objs = uploadObjectsBlob (objs.take 16) := by
  have hcount : uploadedCount (objs.take 16) = uploadedCount objs := by
    simp only [uploadedCount, MAX_OBJECTS, List.length_take]
    omega
  have hgetD : ∀ i < 16, (objs.take 16).getD i default = objs.getD i default := by
    intro i hi
    rw [List.getD_eq_getElem?_getD, List.getD_eq_getElem?_getD,
      List.getElem?_take_of_lt hi]
  refine ⟨rfl, ?_, ?_⟩
  · rw [uploadObjectsBlob]
    have hrange : List.range 16 = [0, 1, 2, 3, 4, 5, 6, 7, 8, 9, 10, 11, 12, 13, 14, 15] := rfl
    have h16 : ∀ (f : ℕ → List ℕ), (∀ i, (f i).length = 16) →
        ((List.range 16).flatMap f).length = 256 := by
      intro f hf
      rw [hrange]
      simp [List.flatMap_cons, List.flatMap_nil, hf]
    have h4 : ∀ (f : ℕ → List ℕ), (∀ i, (f i).length = 4) →
        ((List.range 16).flatMap f).length = 64 := by
      intro f hf
      rw [hrange]
      simp [List.flatMap_cons, List.flatMap_nil, hf]
    have hpr : (posRadiusBytes objs).length = 256 := by
      apply h16
      intro i
      split_ifs <;> simp [f32bytes_length]
    have hcol : (colorBytes objs).length = 256 := by
      apply h16
      intro i
      split_ifs <;> simp [f32bytes_length]
    have hms : (massBytes objs).length = 64 := by
      apply h4
      intro i
      split_ifs <;> simp [f32bytes_length]
    have hhd : (headerBytes objs).length = 16 := by
      simp [headerBytes, f32bytes_length]
    simp [hpr, hcol, hms, hhd]
  · have ehdr : headerBytes (objs.take 16) = headerBytes objs := by
      rw [headerBytes, headerBytes, hcount]
    have e1 : posRadiusBytes (objs.take 16) = posRadiusBytes objs := by
      rw [posRadiusBytes, posRadiusBytes]
      apply List.flatMap_congr
      intro i hi
      have hi16 : i < 16 := List.mem_range.mp hi
      rw [hcount]
      split_ifs with h
      · simp only [hgetD i hi16]
      · rfl
    have e2 : colorBytes (objs.take 16) = colorBytes objs := by
      rw [colorBytes, colorBytes]
      apply List.flatMap_congr
      intro i hi
      have hi16 : i < 16 := List.mem_range.mp hi
      rw [hcount]
      split_ifs with h
      · simp only [hgetD i hi16]
      · rfl
    have e3 : massBytes (objs.take 16) = massBytes objs := by
      rw [massBytes, massBytes]
      apply List.flatMap_congr
      intro i hi
      have hi16 : i < 16 := List.mem_range.mp hi
      rw [hcount]
      split_ifs with h
      · simp only [hgetD i hi16]
      · rfl
    rw [uploadObjectsBlob, uploadObjectsBlob, ehdr, e1, e2, e3]

/-- A scene object placed exactly at the world position of grid vertex
`(12, 12)`, i.e. `(-5e9, *, -5e9)`, with the Sagittarius A* mass. -/
noncomputable def cexGridObj : SceneObj := ⟨-5e9, 0, -5e9, 4e10, 1, 1, 0, 8.54e36⟩

theorem foldl_add_eq_sum {α : Type} (f : α → ℝ) (l : List α) (a : ℝ) :
    l.foldl (fun y o => y + f o) a = a + (l.map f).sum := by
  induction l generalizing a with
  | nil => simp
  | cons x xs ih => simp [ih]; ring

theorem sum_map_sub_const {α : Type} (l : List α) (f : α → ℝ) (c : ℝ) :
    (l.map fun o => f o - c).sum = (l.map f).sum - l.length * c := by
  induction l with
  | nil => simp
  | cons x xs ih => simp [ih]; ring

theorem objectRs_nonneg {m : ℝ} (hm : 0 ≤ m) : 0 ≤ objectRs m := by
  have hG : (0:ℝ) ≤ (Gconst : ℚ) := by
    rw [Rat.cast_nonneg]
    norm_num [Gconst]
  have hc : (0:ℝ) ≤ (cLight : ℚ) := by
    rw [Rat.cast_nonneg]
    norm_num [cLight]
  rw [objectRs]
  positivity

theorem gridContribution_eq (wx wz : ℝ) (o : SceneObj) (hm : 0 ≤ o.mass) :
    gridContribution wx wz o = specContribution wx wz o - 3e10 := by
  have hrs : 0 ≤ objectRs o.mass := objectRs_nonneg hm
  simp only [gridContribution, specContribution]
  split_ifs with h
  · rfl
  · rw [Real.sqrt_mul_self hrs]

/-- **C5 counterexample.** At the grid vertex `(12, 12)` (world position
`(-5e9, -5e9)`) with a scene of two coincident objects centred there, the
code's displacement is `4·r_s - 6e10` — the `3e10` offset is subtracted once
per object — while the claimed formula with a single global `3e10` offset
gives `4·r_s - 3e10`. -/
theorem claim5_single_offset_cex :
    gridVertexY (gridWorld 12) (gridWorld 12) [cexGridObj, cexGridObj] ≠
      (([cexGridObj, cexGridObj].map
        (specContribution (gridWorld 12) (gridWorld 12))).sum - 3e10) := by
  have hw : gridWorld 12 = -5e9 := by
    rw [gridWorld]; norm_num
  have hrs : 0 < objectRs cexGridObj.mass := by
    have hG : (0:ℝ) < (Gconst : ℚ) := by
      rw [Rat.cast_pos]; norm_num [Gconst]
    have hc : (0:ℝ) < (cLight : ℚ) := by
      rw [Rat.cast_pos]; norm_num [cLight]
    rw [objectRs, cexGridObj]
    positivity
  have hdist : Real.sqrt ((-5e9 - cexGridObj.x) * (-5e9 - cexGridObj.x) +
      (-5e9 - cexGridObj.z) * (-5e9 - cexGridObj.z)) = 0 := by
    rw [show (-5e9 - cexGridObj.x) * (-5e9 - cexGridObj.x) +
      (-5e9 - cexGridObj.z) * (-5e9 - cexGridObj.z) = 0 by rw [cexGridObj]; norm_num]
    exact Real.sqrt_zero
  have hC : gridContribution (-5e9) (-5e9) cexGridObj =
      2 * objectRs cexGridObj.mass - 3e10 := by
    simp only [gridContribution, hdist]
    rw [if_neg (by simpa using hrs.le), Real.sqrt_mul_self hrs.le]
  have hS : specContribution (-5e9) (-5e9) cexGridObj =
      2 * objectRs cexGridObj.mass := by
    simp only [specContribution, hdist]
    rw [if_neg (by simpa using hrs.le)]
  rw [hw]
  simp only [gridVertexY, List.foldl, List.map, List.sum_cons, List.sum_nil, hC, hS]
  intro h
  have : (0:ℝ) + (2 * objectRs cexGridObj.mass - 3e10) +
      (2 * objectRs cexGridObj.mass - 3e10) =
      2 * objectRs cexGridObj.mass + (2 * objectRs cexGridObj.mass + 0) - 3e10 := h
  linarith

/-- **C5 (amended).** For every vertex of the 26x26-vertex grid at spacing
`1e10 m` and every list of scene objects with nonnegative masses, the
vertical displacement equals the sum over all objects of
`contribution_i(x,z)` minus `3e10` *per object* (the offset is applied
inside the per-object loop, so the total offset is `len(objects) * 3e10`),
with `contribution_i` as in section 4.4 of the spec. -/
theorem claim5_grid_displacement (i j : ℕ) (_hi : i ≤ 25) (_hj : j ≤ 25)
    (objs : List SceneObj) (hm : ∀ o ∈ objs, 0 ≤ o.mass) :
    gridVertexY (gridWorld i) (gridWorld j) objs =
      (objs.map (specContribution (gridWorld i) (gridWorld j))).sum -
        objs.length * 3e10 := by
  rw [gridVertexY, foldl_add_eq_sum, zero_add]
  rw [show objs.map (gridContribution (gridWorld i) (gridWorld j)) =
      objs.map fun o => specContribution (gridWorld i) (gridWorld j) o - 3e10 from
    List.map_congr_left fun o ho => gridContribution_eq _ _ o (hm o ho)]
  exact sum_map_sub_const objs _ _

/-- **C5 witness.** The amended formula evaluated at vertex `(12, 12)` with
the two-object scene of the counterexample. -/
theorem claim5_grid_displacement_witness :
    gridVertexY (gridWorld 12) (gridWorld 12) [cexGridObj, cexGridObj] =
      (([cexGridObj, cexGridObj].map
        (specContribution (gridWorld 12) (gridWorld 12))).sum - 2 * 3e10) := by
  have h := claim5_grid_displacement 12 12 (by norm_num) (by norm_num)
    [cexGridObj, cexGridObj] (by
      intro o ho
      rcases List.mem_cons.mp ho with h1 | h1
      · rw [h1, cexGridObj]; norm_num
      · rw [List.mem_singleton.mp h1, cexGridObj]; norm_num)
  simpa using h

/-! ## Geodesic claims -/

theorem sqrt_x_axis_two : Real.sqrt (2 * 2 + 0 * 0 + 0 * 0 : ℝ) = 2 := by
  rw [show (2 * 2 + 0 * 0 + 0 * 0 : ℝ) = 2 ^ 2 by norm_num,
    Real.sqrt_sq (by norm_num : (0:ℝ) ≤ 2)]

/-- The ray of the camera axis test: start at `(2, 0, 0)` (so `r = 2`,
`θ = π/2`, `φ = 0`), direction `(0, 0, -1)`, with `r_s = 1`. -/
noncomputable def cRay : Ray :=
  ⟨2, 0, 0, 2, Real.pi / 2, 0, 0, 1 / 2, 0, 0, 1 / 2, 1⟩

/-- Evaluation of `Ray.__init__` on the concrete input of `cRay`. -/
theorem rayInit_cRay : rayInit 2 0 0 0 0 (-1) 1 = some cRay := by
  have hat : atan2 0 2 = 0 := by
    rw [atan2, if_pos (by norm_num : (0:ℝ) < 2)]
    norm_num [Real.arctan_zero]
  simp only [rayInit, sqrt_x_axis_two, hat, cRay]
  norm_num [Real.arccos_zero, Real.sin_pi_div_two, Real.cos_pi_div_two,
    Real.sin_zero, Real.cos_zero, Real.sqrt_one, Ray.mk.injEq]

/-- **C3.** Once a ray is captured (`r ≤ r_s`), `step` returns immediately:
every field of the ray — `r, θ, φ, ṙ, θ̇, φ̇, x, y, z, L, E` — is left
unchanged by a step of any size. -/
theorem claim3_captured_step_frozen (s : Ray) (dlam : ℝ) (h : s.r ≤ s.rs) :
    rayStep s dlam = some s := by
  simp [rayStep, h]

/-- A ray already inside the horizon: `r = 1 ≤ 2 = r_s`. -/
noncomputable def capturedRay : Ray := ⟨0, 0, 1, 1, 0, 0, 0, 0, 0, 0, 1, 2⟩

/-- **C3 witness.** The captured-ray freeze evaluated on a concrete ray. -/
theorem claim3_captured_step_frozen_witness :
    rayStep capturedRay 1e7 = some capturedRay :=
  claim3_captured_step_frozen capturedRay 1e7 (by norm_num [capturedRay])

/-- **C2 counterexample.** The starting data `p = (2,0,0)`, `d = (0,0,-1)`,
`r_s = 1` has `|d| = 1` and `|p| = 2 > r_s`, yet the computed `ṫ = E/f`
violates the claimed null condition `f·ṫ² = ṙ²/f + r²·(θ̇² + sin²θ·φ̇²)` by
a relative error of `1/2`, far above `1e-9`: the code takes
`ṫ = √(ṙ²/f + …)` without the extra `1/f` factor the null condition
requires. -/
theorem claim2_null_condition_cex :
    Real.sqrt (0 * 0 + 0 * 0 + (-1) * (-1)) = 1 ∧
    1 < Real.sqrt (2 * 2 + 0 * 0 + 0 * 0 : ℝ) ∧
    rayInit 2 0 0 0 0 (-1) 1 = some cRay ∧
    ¬ |(1 - cRay.rs / cRay.r) * (cRay.E / (1 - cRay.rs / cRay.r)) ^ 2 -
        (cRay.dr ^ 2 / (1 - cRay.rs / cRay.r) +
          cRay.r ^ 2 * (cRay.dtheta ^ 2 + Real.sin cRay.theta ^ 2 * cRay.dphi ^ 2))| ≤
      1e-9 * |cRay.dr ^ 2 / (1 - cRay.rs / cRay.r) +
          cRay.r ^ 2 * (cRay.dtheta ^ 2 + Real.sin cRay.theta ^ 2 * cRay.dphi ^ 2)| := by
  refine ⟨?_, ?_, rayInit_cRay, ?_⟩
  · rw [show (0 * 0 + 0 * 0 + (-1) * (-1) : ℝ) = 1 by norm_num, Real.sqrt_one]
  · rw [sqrt_x_axis_two]; norm_num
  · simp only [cRay]
    rw [Real.sin_pi_div_two]
    norm_num
    rw [abs_of_pos (by norm_num : (0:ℝ) < 1 / 2)]
    norm_num

/-- **C2 (amended).** For every starting position, direction and `r_s` on
which `Ray.__init__` completes, the derived quantities satisfy
`L = r²·sinθ·φ̇` and the *code's* normalization `ṫ² = ṙ²/f + r²·(θ̇² +
sin²θ·φ̇²)` exactly (with `ṫ = E/f`); the claimed null condition
`f·ṫ² = …` holds only up to the factor `f`. -/
theorem claim2_null_condition_exact (px py pz dx dy dz rs : ℝ) (ray : Ray)
    (h : rayInit px py pz dx dy dz rs = some ray) :
    ray.L = ray.r ^ 2 * Real.sin ray.theta * ray.dphi ∧
    (ray.E / (1 - ray.rs / ray.r)) ^ 2 =
      ray.dr ^ 2 / (1 - ray.rs / ray.r) +
        ray.r ^ 2 * (ray.dtheta ^ 2 + Real.sin ray.theta ^ 2 * ray.dphi ^ 2) := by
  simp only [rayInit] at h
  split_ifs at h with h1 h2 h3 h4 h5
  injection h with h
  subst h
  simp only
  constructor
  · ring
  · rw [mul_div_cancel_left₀ _ h4, Real.sq_sqrt (not_lt.mp h5)]
    ring

/-- **C2 witness.** The amended identity evaluated on the concrete ray of
the counterexample input. -/
theorem claim2_null_condition_exact_witness :
    cRay.L = cRay.r ^ 2 * Real.sin cRay.theta * cRay.dphi ∧
    (cRay.E / (1 - cRay.rs / cRay.r)) ^ 2 =
      cRay.dr ^ 2 / (1 - cRay.rs / cRay.r) +
        cRay.r ^ 2 * (cRay.dtheta ^ 2 + Real.sin cRay.theta ^ 2 * cRay.dphi ^ 2) :=
  claim2_null_condition_exact 2 0 0 0 0 (-1) 1 cRay rayInit_cRay

/-- **C1 (code bug).** `Ray.step` does *not* perform a classical RK4 step:
all four stage derivatives `k1..k4` are produced by calling `rhs()` on the
same unmodified `self` (the six-vector `state` is captured but never written
back between stages), so `k1 = k2 = k3 = k4 = rhs(state)` and the accepted
update `state += (dλ/6)·(k1 + 2k2 + 2k3 + k4)` collapses to the forward
Euler step `state += dλ·rhs(state)`; only the Cartesian recomputation of
`(x, y, z)` from the new `(r, θ, φ)` matches the claim. -/
theorem claim1_step_is_euler (s : Ray) (dlam : ℝ)
    (h0 : 0 < s.r) (hrs : s.rs < s.r) (hsin : Real.sin s.theta ≠ 0) :
    rayStep s dlam = some
      { x := (s.r + dlam * (rayRhs s).v1) *
          Real.sin (s.theta + dlam * (rayRhs s).v2) *
          Real.cos (s.phi + dlam * (rayRhs s).v3)
        y := (s.r + dlam * (rayRhs s).v1) *
          Real.sin (s.theta + dlam * (rayRhs s).v2) *
          Real.sin (s.phi + dlam * (rayRhs s).v3)
        z := (s.r + dlam * (rayRhs s).v1) *
          Real.cos (s.theta + dlam * (rayRhs s).v2)
        r := s.r + dlam * (rayRhs s).v1
        theta := s.theta + dlam * (rayRhs s).v2
        phi := s.phi + dlam * (rayRhs s).v3
        dr := s.dr + dlam * (rayRhs s).v4
        dtheta := s.dtheta + dlam * (rayRhs s).v5
        dphi := s.dphi + dlam * (rayRhs s).v6
        L := s.L
        E := s.E
        rs := s.rs } := by
  have hf : 1 - s.rs / s.r ≠ 0 := by
    have : s.rs / s.r < 1 := (div_lt_one h0).mpr hrs
    linarith
  have hguard : ¬(s.r = 0 ∨ 1 - s.rs / s.r = 0 ∨ Real.sin s.theta = 0) := by
    push_neg
    exact ⟨h0.ne', hf, hsin⟩
  have e1 : s.r + dlam / 6 * ((rayRhs s).v1 + 2 * (rayRhs s).v1 +
      2 * (rayRhs s).v1 + (rayRhs s).v1) = s.r + dlam * (rayRhs s).v1 := by ring
  have e2 : s.theta + dlam / 6 * ((rayRhs s).v2 + 2 * (rayRhs s).v2 +
      2 * (rayRhs s).v2 + (rayRhs s).v2) = s.theta + dlam * (rayRhs s).v2 := by ring
  have e3 : s.phi + dlam / 6 * ((rayRhs s).v3 + 2 * (rayRhs s).v3 +
      2 * (rayRhs s).v3 + (rayRhs s).v3) = s.phi + dlam * (rayRhs s).v3 := by ring
  have e4 : s.dr + dlam / 6 * ((rayRhs s).v4 + 2 * (rayRhs s).v4 +
      2 * (rayRhs s).v4 + (rayRhs s).v4) = s.dr + dlam * (rayRhs s).v4 := by ring
  have e5 : s.dtheta + dlam / 6 * ((rayRhs s).v5 + 2 * (rayRhs s).v5 +
      2 * (rayRhs s).v5 + (rayRhs s).v5) = s.dtheta + dlam * (rayRhs s).v5 := by ring
  have e6 : s.dphi + dlam / 6 * ((rayRhs s).v6 + 2 * (rayRhs s).v6 +
      2 * (rayRhs s).v6 + (rayRhs s).v6) = s.dphi + dlam * (rayRhs s).v6 := by ring
  simp only [rayStep, if_neg (not_le.mpr hrs), if_neg hguard]
  rw [Option.some.injEq, Ray.mk.injEq]
  rw [e1, e2, e3, e4, e5, e6]
  tauto

/-- A concrete uncaptured ray on the equator: `r = 2 > 1 = r_s`,
`θ = π/2`, all spatial derivatives zero, `E = 1`. -/
noncomputable def equatorRay : Ray :=
  ⟨0, 0, 0, 2, Real.pi / 2, 0, 0, 0, 0, 0, 1, 1⟩

/-- **C1 witness.** The Euler-collapse theorem evaluated on `equatorRay`
with `dλ = 6`: the only nonzero derivative component is
`r̈ = -(r_s/(2r²))·f·ṫ² = -1/4`, so the step leaves `(r, θ, φ)` fixed and
moves `ṙ` from `0` to `6·(-1/4) = -3/2`. -/
theorem claim1_step_is_euler_witness :
    rayStep equatorRay 6 = some
      ⟨2, 0, 0, 2, Real.pi / 2, 0, -(3 / 2), 0, 0, 0, 1, 1⟩ := by
  have h := claim1_step_is_euler equatorRay 6
    (by norm_num [equatorRay]) (by norm_num [equatorRay])
    (by rw [equatorRay]; rw [Real.sin_pi_div_two]; norm_num)
  rw [h, Option.some.injEq, Ray.mk.injEq]
  simp only [rayRhs, equatorRay]
  norm_num [Real.sin_pi_div_two, Real.cos_pi_div_two]

/-- **C4 counterexample.** No clamping of `|cosθ|` exists in the code: for
the degenerate exactly-radial ray starting at `(0, 0, 2)` with direction
`(0, 0, -1)` (so `θ = acos(1) = 0` and `sinθ = 0`), `Ray.__init__` divides
by `r·sinθ = 0` in the `φ̇` update and raises `ZeroDivisionError` (modelled
as `none`), contradicting "never raise an error". -/
theorem claim4_radial_ray_raises_cex : rayInit 0 0 2 0 0 (-1) 1 = none := by
  have hsq : Real.sqrt (0 * 0 + 0 * 0 + 2 * 2 : ℝ) = 2 := by
    rw [show (0 * 0 + 0 * 0 + 2 * 2 : ℝ) = 2 ^ 2 by norm_num,
      Real.sqrt_sq (by norm_num : (0:ℝ) ≤ 2)]
  simp only [rayInit, hsq]
  rw [if_neg (by norm_num : ¬(2:ℝ) = 0)]
  rw [if_neg (by norm_num : ¬(1:ℝ) < |(2:ℝ) / 2|)]
  rw [if_pos]
  rw [show ((2:ℝ) / 2) = 1 by norm_num, Real.arccos_one, Real.sin_zero, mul_zero]

/-- **C4 (amended).** There is no clamping, and the numeric edge *is*
fatal: a ray exactly radial through the origin makes `Ray.__init__` raise,
as the counterexample shows.  What does hold is a sufficient guard:
`Ray.__init__` completes without raising whenever the start position is off
the polar axis (`px² + py² > 0`, which forces `r > 0` and `sinθ ≠ 0`) and
`r_s < r = |p|`; `Ray.step` completes without raising whenever `r > 0`,
`r_s ≥ 0` and `sinθ ≠ 0` (a captured ray returns untouched, and
`0 ≤ r_s < r` makes `f ≠ 0`).  These guards are sufficient, not necessary:
an off-axis start with `r_s ≥ r` can still complete when the square-root
argument happens to be nonnegative. -/
theorem claim4_guarded_no_raise :
    (∀ px py pz dx dy dz rs : ℝ, 0 < px * px + py * py →
      rs < Real.sqrt (px * px + py * py + pz * pz) →
      (rayInit px py pz dx dy dz rs).isSome) ∧
    (∀ (s : Ray) (dlam : ℝ), 0 < s.r → 0 ≤ s.rs → Real.sin s.theta ≠ 0 →
      (rayStep s dlam).isSome) := by
  constructor
  · intro px py pz dx dy dz rs hxy hr
    have hS : (0:ℝ) < px * px + py * py + pz * pz := by nlinarith [mul_self_nonneg pz]
    have hr0 : 0 < Real.sqrt (px * px + py * py + pz * pz) := Real.sqrt_pos.mpr hS
    have hsq : Real.sqrt (px * px + py * py + pz * pz) ^ 2 =
        px * px + py * py + pz * pz := Real.sq_sqrt hS.le
    have habs : |pz| ≤ Real.sqrt (px * px + py * py + pz * pz) := by
      rw [← Real.sqrt_mul_self_eq_abs]
      exact Real.sqrt_le_sqrt (by nlinarith)
    have hlt : pz ^ 2 < Real.sqrt (px * px + py * py + pz * pz) ^ 2 := by
      rw [hsq]; nlinarith
    simp only [rayInit]
    split_ifs with h1 h2 h3 h4 h5
    · exact absurd h1 hr0.ne'
    · refine absurd h2 (not_lt.mpr ?_)
      rw [abs_div, abs_of_pos hr0, div_le_one hr0]
      exact habs
    · exfalso
      have hcos : (pz / Real.sqrt (px * px + py * py + pz * pz)) ^ 2 < 1 := by
        rw [div_pow, div_lt_one (by positivity)]
        exact hlt
      have hsin : 0 < Real.sin (Real.arccos
          (pz / Real.sqrt (px * px + py * py + pz * pz))) := by
        rw [Real.sin_arccos]
        exact Real.sqrt_pos.mpr (by linarith)
      exact absurd h3 (mul_pos hr0 hsin).ne'
    · exfalso
      have : rs / Real.sqrt (px * px + py * py + pz * pz) < 1 :=
        (div_lt_one hr0).mpr hr
      exact absurd h4 (by linarith)
    · exfalso
      have hfpos : 0 < 1 - rs / Real.sqrt (px * px + py * py + pz * pz) := by
        have : rs / Real.sqrt (px * px + py * py + pz * pz) < 1 :=
          (div_lt_one hr0).mpr hr
        linarith
      refine absurd h5 (not_lt.mpr ?_)
      exact add_nonneg (div_nonneg (mul_self_nonneg _) hfpos.le)
        (mul_nonneg (mul_self_nonneg _) (add_nonneg (mul_self_nonneg _)
          (mul_nonneg (sq_nonneg _) (mul_self_nonneg _))))
    · rfl
  · intro s dlam h0 hrsnn hsin
    simp only [rayStep]
    split_ifs with h1 h2
    · rfl
    · exfalso
      rcases h2 with h | h | h
      · exact h0.ne' h
      · have hlt : s.rs < s.r := not_le.mp h1
        have : s.rs / s.r < 1 := (div_lt_one h0).mpr hlt
        linarith
      · exact hsin h
    · rfl

/-- **C4 witness.** The guarded-success theorem applied to the off-axis
start `(2, 0, 0)` with `r_s = 1` and to the equatorial ray `equatorRay`. -/
theorem claim4_guarded_no_raise_witness :
    (rayInit 2 0 0 0 0 (-1) 1).isSome ∧ (rayStep equatorRay 6).isSome := by
  constructor
  · exact claim4_guarded_no_raise.1 2 0 0 0 0 (-1) 1 (by norm_num)
      (by rw [sqrt_x_axis_two]; norm_num)
  · exact claim4_guarded_no_raise.2 equatorRay 6 (by norm_num [equatorRay])
      (by norm_num [equatorRay])
      (by rw [equatorRay]; rw [Real.sin_pi_div_two]; norm_num)

end BlackHole
